import Mathlib

/-!
Shallow embedding of the generic CRUD base service (`BaseService<T>` in
`src/base/base.service.ts`) of the x-server repository, together with the
hook-free `EmployeeService` subclass.

Modelling choices, all taken from the source:
  * Entities are documents with an object id, an opaque text payload (standing
    for the domain fields) and the bookkeeping fields `createdBy`, `updatedBy`,
    `isDeleted`, `deletedBy`, `deletedAt`.
  * The dependencies carrying an `@Inject` decorator (the cache service and
    the activity-log service) and the constructor-injected mongoose model are
    modelled as operations on one explicit state record `St` holding the
    document store, the cache, the audit log, the console output and the
    emitted events.  The `eventEmitter` property carries no decorator and is
    never assigned, so it is `undefined` at runtime: `this.eventEmitter.emit`
    throws a TypeError, which the embedding models by `emit` throwing; the
    `events` list of the state therefore never grows.
  * Operations run in the monad `M α := St → Except Err α × St`: a JavaScript
    exception carries the state reached at the point of the throw (side
    effects already performed are not rolled back), and `tryCatch` models a
    JS try/catch block.
  * The activity-log backend may fail; the flag `auditOk` of the service
    configuration says whether it does. Machine integers are modelled as `Nat`
    (no arithmetic in the source can overflow in a relevant way), `new Date()`
    reads the `now` field of the state.
  * In `findOne` the source lacks an `await` on `this.onView([entity], user)`:
    `data[0]` is property access on a `Promise`, hence `undefined`, so the
    function returns the promise itself, which the async machinery awaits to
    the list produced by `onView`.  The embedding returns `RVal.list` there,
    while the cached branch returns the cached value unchanged; the result
    type `RVal` covers both shapes (and the page shape of `findAll`).
-/

namespace XServer

/-- A request user (`IUser`); `userId` is `none` when absent or falsy. -/
structure User where
  userId : Option String
deriving Repr, DecidableEq

/-- `user?.userId` of the source. -/
def userId? (u : Option User) : Option String :=
  match u with
  | none => none
  | some x => x.userId

/-- A stored document: object id, opaque payload, bookkeeping fields. -/
structure Entity where
  _id : String
  text : String
  createdBy : Option String
  updatedBy : Option String
  isDeleted : Bool
  deletedBy : Option String
  deletedAt : Option Nat
deriving Repr, DecidableEq

/-- A `Partial<T>` argument of create/update: the fields it sets. -/
structure Patch where
  text : Option String
  createdBy : Option String
  updatedBy : Option String
deriving Repr, DecidableEq

/-- A mongoose `FilterQuery<T>`: the empty filter or a `$text` search. -/
inductive Filter where
  | all : Filter
  | text : String → Filter
deriving Repr, DecidableEq

/-- A sort specification `Record<string, 1 | -1>`; `true` stands for `1`. -/
abbrev SortSpec := List (String × Bool)

/-- The paged result `{ data, total, page, limit }` of `findAll`. -/
structure PageRes where
  data : List Entity
  total : Nat
  page : Nat
  limit : Nat
deriving Repr, DecidableEq

/-- A runtime value returned by a read operation or stored in the cache:
a bare entity, a list of entities, or a paged result. -/
inductive RVal where
  | ent : Entity → RVal
  | list : List Entity → RVal
  | page : PageRes → RVal
deriving Repr, DecidableEq

/-- The `changes` payload handed to the activity log. -/
inductive ChVal where
  | patch : Patch → ChVal
  | ent : Option Entity → ChVal
  | filt : Filter → ChVal
  | qry : String → ChVal
deriving Repr, DecidableEq

/-- One audit-log entry, as `ActivityLogService.logActivity` receives it. -/
structure LogEntry where
  action : String
  documentId : String
  collection : String
  user : Option User
  changes : Option ChVal
deriving Repr, DecidableEq

/-- One emitted lifecycle event: name and `{ entity, user }` payload. -/
structure Ev where
  name : String
  entity : Option Entity
  user : Option User
deriving Repr, DecidableEq

/-- The world state threaded through every operation. -/
structure St where
  db : List Entity
  cache : List (String × RVal)
  audit : List LogEntry
  console : List String
  events : List Ev
  nextId : Nat
  now : Nat
deriving Repr, DecidableEq

/-- The exceptions that can travel through an operation: the HTTP-level
ones the service constructs, and a raw JavaScript `TypeError` (raised by
the call on the never-injected, hence `undefined`, event emitter). -/
inductive Err where
  | badRequest : String → Err
  | notFound : String → Err
  | internal : String → Err
  | typeError : String → Err
deriving Repr, DecidableEq

/-- The effect monad: explicit state, explicit exceptions; an exception
keeps the state reached at the throw point. -/
def M (α : Type) : Type := St → Except Err α × St

def M.pure (a : α) : M α := fun s => (Except.ok a, s)

def M.bind (m : M α) (f : α → M β) : M β := fun s =>
  match m s with
  | (Except.ok a, s1) => f a s1
  | (Except.error e, s1) => (Except.error e, s1)

instance : Monad M where
  pure := M.pure
  bind := M.bind

/-- `throw e` inside an operation body. -/
def M.throw (e : Err) : M α := fun s => (Except.error e, s)

/-- A JS `try { m } catch (error) { h error }` block. -/
def tryCatch (m : M α) (h : Err → M α) : M α := fun s =>
  match m s with
  | (Except.ok a, s1) => (Except.ok a, s1)
  | (Except.error e, s1) => h e s1

/-- mongoose `isValidObjectId`: a 24-character hex string. -/
def isValidObjectId (s : String) : Bool :=
  s.length == 24 &&
    s.toList.all fun c =>
      c.isDigit || ('a' ≤ c && c ≤ 'f') || ('A' ≤ c && c ≤ 'F')

def hexDigitChar (n : Nat) : Char :=
  if n < 10 then Char.ofNat (48 + n) else Char.ofNat (87 + n)

def hexChars : Nat → Nat → List Char
  | 0, _ => []
  | w + 1, n => hexChars w (n / 16) ++ [hexDigitChar (n % 16)]

/-- The object id mongoose assigns to the `k`-th created document. -/
def freshId (k : Nat) : String := String.mk (hexChars 24 k)

/-- `JSON.stringify` of a filter, as it appears in cache keys. -/
def stringifyFilter : Filter → String
  | Filter.all => "\x7b\x7d"
  | Filter.text q =>
      "\x7b\"$text\":\x7b\"$search\":\"" ++ q ++ "\"\x7d\x7d"

/-- `JSON.stringify` of a sort record, as it appears in cache keys. -/
def stringifySort (so : SortSpec) : String :=
  "\x7b" ++ String.intercalate ","
    (so.map fun kv => "\"" ++ kv.1 ++ "\":" ++ (if kv.2 then "1" else "-1"))
    ++ "\x7d"

/-- The cache key `findAll` computes. -/
def findAllKey (coll : String) (f : Filter) (page limit : Nat)
    (so : SortSpec) : String :=
  coll ++ "-findAll-" ++ stringifyFilter f ++ "-" ++ toString page ++ "-"
    ++ toString limit ++ "-" ++ stringifySort so

/-- The cache key `findOne` computes. -/
def findOneKey (coll : String) (id : String) : String :=
  coll ++ "-findOne-" ++ id

/-- Association-list lookup in the cache. -/
def cacheLookup (k : String) : List (String × RVal) → Option RVal
  | [] => none
  | kv :: rest => if kv.1 == k then some kv.2 else cacheLookup k rest

/-- Overwriting insertion into the cache. -/
def cacheSet (k : String) (v : RVal) (c : List (String × RVal)) :
    List (String × RVal) :=
  (k, v) :: c.filter fun kv => kv.1 != k

/-- `CacheService.delCache` on a pattern: a trailing `*` deletes every key
with the given stem, otherwise the exact key is deleted. -/
def cacheDel (pat : String) (c : List (String × RVal)) :
    List (String × RVal) :=
  if pat.endsWith "*" then
    c.filter fun kv => !(pat.dropRight 1).isPrefixOf kv.1
  else
    c.filter fun kv => kv.1 != pat

def getCached (k : String) : M (Option RVal) := fun s =>
  (Except.ok (cacheLookup k s.cache), s)

def setCached (k : String) (v : RVal) : M Unit := fun s =>
  (Except.ok (), { s with cache := cacheSet k v s.cache })

def delCache (pat : String) : M Unit := fun s =>
  (Except.ok (), { s with cache := cacheDel pat s.cache })

/-- `this.eventEmitter.emit(name, { entity, user })`: the `eventEmitter`
property has no `@Inject` decorator and is assigned nowhere, so it is
`undefined` at runtime and the member call throws a TypeError (the
arguments are never used).  The surrounding catch-all then converts this
into the operation's generic internal error. -/
def emit (_name : String) (_e : Option Entity) (_u : Option User) :
    M Unit :=
  M.throw
    (Err.typeError
      "Cannot read properties of undefined (reading 'emit')")

/-- Does the document match the filter? `$text` is modelled as substring
search on the indexed payload. -/
def Filter.matches : Filter → Entity → Bool
  | Filter.all, _ => true
  | Filter.text q, e => ((e.text.splitOn q).length > 1)

/-- The string rendering of a field, for sorting. -/
def Entity.fieldStr (e : Entity) : String → String
  | "_id" => e._id
  | "text" => e.text
  | "createdBy" => e.createdBy.getD ""
  | "updatedBy" => e.updatedBy.getD ""
  | "isDeleted" => if e.isDeleted then "1" else "0"
  | "deletedBy" => e.deletedBy.getD ""
  | "deletedAt" => toString (e.deletedAt.getD 0)
  | _ => ""

/-- Comparison of two documents under a sort record. -/
def sortLe (so : SortSpec) (a b : Entity) : Bool :=
  match so with
  | [] => true
  | (k, asc) :: rest =>
      let x := a.fieldStr k
      let y := b.fieldStr k
      if x == y then sortLe rest a b
      else if asc then decide (x < y) else decide (y < x)

def insertSorted (le : Entity → Entity → Bool) (e : Entity) :
    List Entity → List Entity
  | [] => [e]
  | x :: xs => if le e x then e :: x :: xs else x :: insertSorted le e xs

/-- A stable sort of the result set under the sort record. -/
def applySort (so : SortSpec) : List Entity → List Entity
  | [] => []
  | x :: xs => insertSorted (sortLe so) x (applySort so xs)

/-- `model.countDocuments(condition)`. -/
def dbCount (f : Filter) : M Nat := fun s =>
  (Except.ok (s.db.filter (Filter.matches f)).length, s)

/-- `model.find(condition).skip(skip).limit(limit).sort(sort)`:
the server filters, sorts, skips, limits. -/
def dbQuery (f : Filter) (skip limit : Nat) (so : SortSpec) :
    M (List Entity) := fun s =>
  (Except.ok (((applySort so (s.db.filter (Filter.matches f))).drop skip).take
      limit), s)

/-- `model.findById(id)`. -/
def dbFindById (id : String) : M (Option Entity) := fun s =>
  (Except.ok (s.db.find? fun e => e._id == id), s)

/-- Applying an update document (a `$set` of the given fields). -/
def applyPatch (p : Patch) (e : Entity) : Entity :=
  { e with
    text := p.text.getD e.text
    createdBy := if p.createdBy.isSome then p.createdBy else e.createdBy
    updatedBy := if p.updatedBy.isSome then p.updatedBy else e.updatedBy }

/-- `model.findByIdAndUpdate(id, p, { new: true })`. -/
def dbFindByIdAndUpdate (id : String) (p : Patch) : M (Option Entity) :=
  fun s =>
    match s.db.find? fun e => e._id == id with
    | none => (Except.ok none, s)
    | some e =>
        let e1 := applyPatch p e
        (Except.ok (some e1),
          { s with db := s.db.map fun x => if x._id == id then e1 else x })

/-- `model.findByIdAndUpdate(id, { isDeleted: true, deletedBy: user?.userId,
deletedAt: new Date() }, { new: true })` of `softRemove`. -/
def dbSoftDeleteById (id : String) (uid : Option String) :
    M (Option Entity) := fun s =>
  match s.db.find? fun e => e._id == id with
  | none => (Except.ok none, s)
  | some e =>
      let e1 := { e with isDeleted := true, deletedBy := uid,
                         deletedAt := some s.now }
      (Except.ok (some e1),
        { s with db := s.db.map fun x => if x._id == id then e1 else x })

/-- `model.findByIdAndDelete(id)`. -/
def dbFindByIdAndDelete (id : String) : M (Option Entity) := fun s =>
  match s.db.find? fun e => e._id == id with
  | none => (Except.ok none, s)
  | some e =>
      (Except.ok (some e), { s with db := s.db.filter fun x => x._id != id })

/-- `new this.model(p); entity.save()`: a fresh document from the patch. -/
def dbInsert (p : Patch) : M Entity := fun s =>
  let e : Entity :=
    { _id := freshId s.nextId
      text := p.text.getD ""
      createdBy := p.createdBy
      updatedBy := p.updatedBy
      isDeleted := false
      deletedBy := none
      deletedAt := none }
  (Except.ok e, { s with db := s.db ++ [e], nextId := s.nextId + 1 })

/-- The lifecycle hooks a subclass may override. -/
structure Hooks where
  beforeCreate : Patch → Option User → M Patch
  afterCreate : Entity → Option User → M Unit
  beforeUpdate : String → Patch → Option User → M Patch
  afterUpdate : Entity → Option User → M Unit
  beforeRemove : Option Entity → Option User → M Unit
  afterRemove : Option Entity → Option User → M Unit
  onView : List Entity → Option User → M (List Entity)
  onFinding : Filter → Option User → M Filter

/-- The default hooks of `BaseService`, which subclasses inherit unless they
override them. -/
def defaultHooks : Hooks where
  beforeCreate := fun d _ => M.pure d
  afterCreate := fun _ _ => M.pure ()
  beforeUpdate := fun _ d _ => M.pure d
  afterUpdate := fun _ _ => M.pure ()
  beforeRemove := fun _ _ => M.pure ()
  afterRemove := fun _ _ => M.pure ()
  onView := fun d _ => M.pure d
  onFinding := fun c _ => M.pure c

/-- A concrete service: collection name, model name, whether the audit-log
backend succeeds, and the (possibly overridden) hooks. -/
structure Svc where
  coll : String
  modelName : String
  auditOk : Bool
  hooks : Hooks

/-- The external `ActivityLogService.logActivity`; it appends an entry, or
fails when the backend is down. -/
def ActivityLogService.logActivity (auditOk : Bool) (action documentId
    collection : String) (user : Option User) (changes : Option ChVal) :
    M Unit :=
  if auditOk then
    fun s => (Except.ok (),
      { s with audit := s.audit ++ [⟨action, documentId, collection, user,
          changes⟩] })
  else M.throw (Err.internal "activity log backend failure")

namespace BaseService

/-- `BaseService.logActivity`: best-effort audit write; a failure is written
to the console and swallowed. -/
def logActivity (S : Svc) (action documentId : String) (user : Option User)
    (changes : Option ChVal) : M Unit :=
  tryCatch
    (ActivityLogService.logActivity S.auditOk action documentId S.coll user
      changes)
    (fun _ => fun s =>
      (Except.ok (), { s with console := s.console ++
        ["Create log system error"] }))

/-- `BaseService.create`. -/
def create (S : Svc) (data : Patch) (user : Option User) : M Entity :=
  tryCatch
    (do
      let data := if (userId? user).isSome
        then { data with createdBy := userId? user } else data
      let processedData ← S.hooks.beforeCreate data user
      let entity ← dbInsert processedData
      S.hooks.afterCreate entity user
      logActivity S "create" entity._id user (some (ChVal.patch data))
      delCache (S.coll ++ "-findAll-*")
      emit (S.modelName ++ ".saved") (some entity) user
      M.pure entity)
    (fun _ => M.throw (Err.internal "Error creating entity"))

/-- `BaseService.update`. -/
def update (S : Svc) (id : String) (data : Patch) (user : Option User) :
    M Entity :=
  if !isValidObjectId id then M.throw (Err.badRequest "Invalid ID format")
  else
    tryCatch
      (do
        let data := if (userId? user).isSome
          then { data with updatedBy := userId? user } else data
        let processedData ← S.hooks.beforeUpdate id data user
        let entityOpt ← dbFindByIdAndUpdate id processedData
        match entityOpt with
        | none =>
            M.throw (Err.notFound ("Entity with id " ++ id ++ " not found"))
        | some entity => do
            S.hooks.afterUpdate entity user
            logActivity S "update" id user (some (ChVal.patch data))
            delCache (S.coll ++ "-findOne-" ++ id)
            delCache (S.coll ++ "-findAll-*")
            emit (S.modelName ++ ".saved") (some entity) user
            M.pure entity)
      (fun _ => M.throw (Err.internal "Error updating entity"))

/-- `BaseService.remove`. -/
def remove (S : Svc) (id : String) (user : Option User) : M Unit :=
  if !isValidObjectId id then M.throw (Err.badRequest "Invalid ID format")
  else
    tryCatch
      (do
        let entity ← dbFindById id
        S.hooks.beforeRemove entity user
        let result ← dbFindByIdAndDelete id
        match result with
        | none =>
            M.throw (Err.notFound ("Entity with id " ++ id ++ " not found"))
        | some _ => do
            S.hooks.afterRemove entity user
            logActivity S "delete" id user (some (ChVal.ent entity))
            delCache (S.coll ++ "-findOne-" ++ id)
            delCache (S.coll ++ "-findAll-*")
            emit (S.modelName ++ ".deleted") entity user
            M.pure ())
      (fun _ => M.throw (Err.internal "Error removing entity"))

/-- `BaseService.findAll`. -/
def findAll (S : Svc) (filter : Filter) (page limit : Nat) (sort : SortSpec)
    (user : Option User) : M RVal := do
  let condition ← S.hooks.onFinding filter user
  let cacheKey := findAllKey S.coll condition page limit sort
  let cachedResult ← getCached cacheKey
  match cachedResult with
  | some v => M.pure v
  | none =>
      let skip := (page - 1) * limit
      tryCatch
        (do
          let total ← dbCount condition
          let data ← dbQuery condition skip limit sort
          let processedData ← S.hooks.onView data user
          let result : PageRes := ⟨processedData, total, page, limit⟩
          setCached cacheKey (RVal.page result)
          logActivity S "viewAll" "" user (some (ChVal.filt condition))
          M.pure (RVal.page result))
        (fun _ => M.throw (Err.internal "Error fetching entities"))

/-- `BaseService.findOne`.  The non-cached branch returns `RVal.list`: the
source forgets to `await` `this.onView([entity], user)`, so `data[0]` is
`undefined` and the promise itself is returned (and awaited to the list). -/
def findOne (S : Svc) (id : String) (user : Option User) : M RVal :=
  if !isValidObjectId id then M.throw (Err.badRequest "Invalid ID format")
  else do
    let cacheKey := findOneKey S.coll id
    let cachedEntity ← getCached cacheKey
    match cachedEntity with
    | some v => M.pure v
    | none =>
        tryCatch
          (do
            let entityOpt ← dbFindById id
            match entityOpt with
            | none =>
                M.throw
                  (Err.notFound ("Entity with id " ++ id ++ " not found"))
            | some entity => do
                setCached cacheKey (RVal.ent entity)
                logActivity S "view" id user none
                let data ← S.hooks.onView [entity] user
                M.pure (RVal.list data))
          (fun _ => M.throw (Err.internal "Error fetching entity"))

/-- `BaseService.search`. -/
def search (S : Svc) (query : String) (page limit : Nat)
    (user : Option User) : M RVal :=
  tryCatch
    (do
      let filter := Filter.text query
      let result ← findAll S filter page limit [] user
      logActivity S "search" "" user (some (ChVal.qry query))
      M.pure result)
    (fun _ => M.throw (Err.internal "Error searching entities"))

/-- `BaseService.softRemove`: note that unlike the other mutators it
contains no cache-invalidation and no emit call at all. -/
def softRemove (S : Svc) (id : String) (user : Option User) : M Unit :=
  if !isValidObjectId id then M.throw (Err.badRequest "Invalid ID format")
  else
    tryCatch
      (do
        let entityOpt ← dbSoftDeleteById id (userId? user)
        match entityOpt with
        | none =>
            M.throw (Err.notFound ("Entity with id " ++ id ++ " not found"))
        | some _ => logActivity S "softDelete" id user none)
      (fun _ => M.throw (Err.internal "Error soft-deleting entity"))

end BaseService

/-- `EmployeeService`: a subclass of `BaseService` that overrides nothing,
so it runs with the default hooks.  The flag says whether the audit-log
backend is up. -/
def employeeSvc (auditOk : Bool) : Svc :=
  { coll := "employees", modelName := "Employee", auditOk := auditOk,
    hooks := defaultHooks }

/-! ### State transformers naming the effect of each step, used to state the
behaviour of the operations explicitly. -/

/-- The `data` mutation at the start of `create`. -/
def createData (d : Patch) (u : Option User) : Patch :=
  if (userId? u).isSome then { d with createdBy := userId? u } else d

/-- The `data` mutation at the start of `update`. -/
def updData (d : Patch) (u : Option User) : Patch :=
  if (userId? u).isSome then { d with updatedBy := userId? u } else d

/-- The document `new this.model(p); entity.save()` produces when `k`
documents were created before. -/
def newEntity (k : Nat) (p : Patch) : Entity :=
  { _id := freshId k
    text := p.text.getD ""
    createdBy := p.createdBy
    updatedBy := p.updatedBy
    isDeleted := false
    deletedBy := none
    deletedAt := none }

/-- The effect of the best-effort audit write on the state: an audit entry
when the backend is up, a console line when it is down. -/
def logApp (b : Bool) (entry : LogEntry) (s : St) : St :=
  if b then { s with audit := s.audit ++ [entry] }
  else { s with console := s.console ++ ["Create log system error"] }

def delCacheSt (pat : String) (s : St) : St :=
  { s with cache := cacheDel pat s.cache }

def saveSt (e : Entity) (s : St) : St :=
  { s with db := s.db ++ [e], nextId := s.nextId + 1 }

def replaceSt (id : String) (e1 : Entity) (s : St) : St :=
  { s with db := s.db.map fun x => if x._id == id then e1 else x }

def deleteSt (id : String) (s : St) : St :=
  { s with db := s.db.filter fun x => x._id != id }

def setCacheSt (k : String) (v : RVal) (s : St) : St :=
  { s with cache := cacheSet k v s.cache }

def addAudit (s : St) (entry : LogEntry) : St :=
  { s with audit := s.audit ++ [entry] }

/-- The components of the state other than the audit log and the console:
document store, cache, events, id counter, clock. -/
def visible (s : St) :
    List Entity × List (String × RVal) × List Ev × Nat × Nat :=
  (s.db, s.cache, s.events, s.nextId, s.now)

/-! ### The operations with the hook calls removed, for comparison with the
behaviour of a subclass that overrides no hook. -/

def createNoHooks (S : Svc) (data : Patch) (user : Option User) :
    M Entity :=
  tryCatch
    (do
      let data := if (userId? user).isSome
        then { data with createdBy := userId? user } else data
      let entity ← dbInsert data
      BaseService.logActivity S "create" entity._id user
        (some (ChVal.patch data))
      delCache (S.coll ++ "-findAll-*")
      emit (S.modelName ++ ".saved") (some entity) user
      M.pure entity)
    (fun _ => M.throw (Err.internal "Error creating entity"))

def updateNoHooks (S : Svc) (id : String) (data : Patch)
    (user : Option User) : M Entity :=
  if !isValidObjectId id then M.throw (Err.badRequest "Invalid ID format")
  else
    tryCatch
      (do
        let data := if (userId? user).isSome
          then { data with updatedBy := userId? user } else data
        let entityOpt ← dbFindByIdAndUpdate id data
        match entityOpt with
        | none =>
            M.throw (Err.notFound ("Entity with id " ++ id ++ " not found"))
        | some entity => do
            BaseService.logActivity S "update" id user
              (some (ChVal.patch data))
            delCache (S.coll ++ "-findOne-" ++ id)
            delCache (S.coll ++ "-findAll-*")
            emit (S.modelName ++ ".saved") (some entity) user
            M.pure entity)
      (fun _ => M.throw (Err.internal "Error updating entity"))

def removeNoHooks (S : Svc) (id : String) (user : Option User) : M Unit :=
  if !isValidObjectId id then M.throw (Err.badRequest "Invalid ID format")
  else
    tryCatch
      (do
        let entity ← dbFindById id
        let result ← dbFindByIdAndDelete id
        match result with
        | none =>
            M.throw (Err.notFound ("Entity with id " ++ id ++ " not found"))
        | some _ => do
            BaseService.logActivity S "delete" id user
              (some (ChVal.ent entity))
            delCache (S.coll ++ "-findOne-" ++ id)
            delCache (S.coll ++ "-findAll-*")
            emit (S.modelName ++ ".deleted") entity user
            M.pure ())
      (fun _ => M.throw (Err.internal "Error removing entity"))

def findAllNoHooks (S : Svc) (filter : Filter) (page limit : Nat)
    (sort : SortSpec) (user : Option User) : M RVal := do
  let cacheKey := findAllKey S.coll filter page limit sort
  let cachedResult ← getCached cacheKey
  match cachedResult with
  | some v => M.pure v
  | none =>
      let skip := (page - 1) * limit
      tryCatch
        (do
          let total ← dbCount filter
          let data ← dbQuery filter skip limit sort
          let result : PageRes := ⟨data, total, page, limit⟩
          setCached cacheKey (RVal.page result)
          BaseService.logActivity S "viewAll" "" user
            (some (ChVal.filt filter))
          M.pure (RVal.page result))
        (fun _ => M.throw (Err.internal "Error fetching entities"))

def findOneNoHooks (S : Svc) (id : String) (user : Option User) : M RVal :=
  if !isValidObjectId id then M.throw (Err.badRequest "Invalid ID format")
  else do
    let cacheKey := findOneKey S.coll id
    let cachedEntity ← getCached cacheKey
    match cachedEntity with
    | some v => M.pure v
    | none =>
        tryCatch
          (do
            let entityOpt ← dbFindById id
            match entityOpt with
            | none =>
                M.throw
                  (Err.notFound ("Entity with id " ++ id ++ " not found"))
            | some entity => do
                setCached cacheKey (RVal.ent entity)
                BaseService.logActivity S "view" id user none
                M.pure (RVal.list [entity]))
          (fun _ => M.throw (Err.internal "Error fetching entity"))

def searchNoHooks (S : Svc) (query : String) (page limit : Nat)
    (user : Option User) : M RVal :=
  tryCatch
    (do
      let result ← findAllNoHooks S (Filter.text query) page limit [] user
      BaseService.logActivity S "search" "" user (some (ChVal.qry query))
      M.pure result)
    (fun _ => M.throw (Err.internal "Error searching entities"))

/-! ### Concrete sample inputs for witnesses and counterexamples. -/

def sampleId : String := "aaaaaaaaaaaaaaaaaaaaaaaa"

def invalidId : String := "nope"

def sampleUser : User := ⟨some "u1"⟩

def samplePatch : Patch := ⟨some "hello", none, none⟩

def sampleEntity : Entity :=
  ⟨sampleId, "hello world", none, none, false, none, none⟩

def emptySt : St := ⟨[], [], [], [], [], 0, 7⟩

def stWithDoc : St := { emptySt with db := [sampleEntity] }

def stWithDocAndCache : St :=
  { stWithDoc with
    cache := [(findOneKey "employees" sampleId, RVal.ent sampleEntity)] }

def samplePage : PageRes := ⟨[sampleEntity], 1, 1, 10⟩

def stWithFindAllCache : St :=
  { stWithDoc with
    cache := [(findAllKey "employees" Filter.all 1 10 [],
      RVal.page samplePage)] }

/-- The paged result `findAll` computes on a cache miss. -/
def findAllPage (s : St) (f : Filter) (p l : Nat) (so : SortSpec) :
    PageRes :=
  ⟨((applySort so (s.db.filter (Filter.matches f))).drop ((p - 1) * l)).take
      l,
    (s.db.filter (Filter.matches f)).length, p, l⟩

/-! ### Unfolding lemmas for the monad and the individual operations. -/

theorem bind_def (m : M α) (f : α → M β) : m >>= f = M.bind m f := rfl

theorem pure_def (a : α) : (pure a : M α) = M.pure a := rfl

theorem logActivity_run (S : Svc) (a i : String) (u : Option User)
    (c : Option ChVal) (s : St) :
    BaseService.logActivity S a i u c s =
      (Except.ok (), logApp S.auditOk ⟨a, i, S.coll, u, c⟩ s) := by
  cases hb : S.auditOk <;>
    simp [BaseService.logActivity, ActivityLogService.logActivity, tryCatch,
      M.throw, logApp, hb]

theorem create_run (b : Bool) (d : Patch) (u : Option User) (s : St) :
    BaseService.create (employeeSvc b) d u s =
      (Except.error (Err.internal "Error creating entity"),
        delCacheSt "employees-findAll-*"
          (logApp b
            ⟨"create", freshId s.nextId, "employees", u,
              some (ChVal.patch (createData d u))⟩
            (saveSt (newEntity s.nextId (createData d u)) s))) := by
  rcases u with _ | ⟨_ | uid⟩ <;> cases b <;> rfl

theorem update_run (b : Bool) (id : String) (d : Patch) (u : Option User)
    (s : St) (e0 : Entity)
    (hv : isValidObjectId id = true)
    (hf : s.db.find? (fun e => e._id == id) = some e0) :
    BaseService.update (employeeSvc b) id d u s =
      (Except.error (Err.internal "Error updating entity"),
        delCacheSt "employees-findAll-*"
          (delCacheSt ("employees-findOne-" ++ id)
            (logApp b
              ⟨"update", id, "employees", u,
                some (ChVal.patch (updData d u))⟩
              (replaceSt id (applyPatch (updData d u) e0) s)))) := by
  cases b <;>
    simp [BaseService.update, hv, employeeSvc, defaultHooks, tryCatch,
      bind_def, pure_def, M.bind, M.pure, M.throw, BaseService.logActivity,
      ActivityLogService.logActivity, dbFindByIdAndUpdate, hf, delCache,
      emit, logApp, delCacheSt, replaceSt, updData]

theorem update_notFound (b : Bool) (id : String) (d : Patch)
    (u : Option User) (s : St)
    (hv : isValidObjectId id = true)
    (hf : s.db.find? (fun e => e._id == id) = none) :
    BaseService.update (employeeSvc b) id d u s =
      (Except.error (Err.internal "Error updating entity"), s) := by
  cases b <;>
    simp [BaseService.update, hv, employeeSvc, defaultHooks, tryCatch,
      bind_def, pure_def, M.bind, M.pure, M.throw, dbFindByIdAndUpdate, hf]

theorem remove_run (b : Bool) (id : String) (u : Option User) (s : St)
    (e0 : Entity)
    (hv : isValidObjectId id = true)
    (hf : s.db.find? (fun e => e._id == id) = some e0) :
    BaseService.remove (employeeSvc b) id u s =
      (Except.error (Err.internal "Error removing entity"),
        delCacheSt "employees-findAll-*"
          (delCacheSt ("employees-findOne-" ++ id)
            (logApp b
              ⟨"delete", id, "employees", u, some (ChVal.ent (some e0))⟩
              (deleteSt id s)))) := by
  cases b <;>
    simp [BaseService.remove, hv, employeeSvc, defaultHooks, tryCatch,
      bind_def, pure_def, M.bind, M.pure, M.throw, BaseService.logActivity,
      ActivityLogService.logActivity, dbFindById, dbFindByIdAndDelete, hf,
      delCache, emit, logApp, delCacheSt, deleteSt]

theorem remove_notFound (b : Bool) (id : String) (u : Option User) (s : St)
    (hv : isValidObjectId id = true)
    (hf : s.db.find? (fun e => e._id == id) = none) :
    BaseService.remove (employeeSvc b) id u s =
      (Except.error (Err.internal "Error removing entity"), s) := by
  cases b <;>
    simp [BaseService.remove, hv, employeeSvc, defaultHooks, tryCatch,
      bind_def, pure_def, M.bind, M.pure, M.throw, dbFindById,
      dbFindByIdAndDelete, hf]

theorem softRemove_run (b : Bool) (id : String) (u : Option User) (s : St)
    (e0 : Entity)
    (hv : isValidObjectId id = true)
    (hf : s.db.find? (fun e => e._id == id) = some e0) :
    BaseService.softRemove (employeeSvc b) id u s =
      (Except.ok (),
        logApp b ⟨"softDelete", id, "employees", u, none⟩
          (replaceSt id
            { e0 with isDeleted := true, deletedBy := userId? u,
                      deletedAt := some s.now } s)) := by
  cases b <;>
    simp [BaseService.softRemove, hv, employeeSvc, defaultHooks, tryCatch,
      bind_def, pure_def, M.bind, M.pure, M.throw, BaseService.logActivity,
      ActivityLogService.logActivity, dbSoftDeleteById, hf, logApp,
      replaceSt]

theorem softRemove_notFound (b : Bool) (id : String) (u : Option User)
    (s : St)
    (hv : isValidObjectId id = true)
    (hf : s.db.find? (fun e => e._id == id) = none) :
    BaseService.softRemove (employeeSvc b) id u s =
      (Except.error (Err.internal "Error soft-deleting entity"), s) := by
  cases b <;>
    simp [BaseService.softRemove, hv, employeeSvc, defaultHooks, tryCatch,
      bind_def, pure_def, M.bind, M.pure, M.throw, dbSoftDeleteById, hf]

theorem findAll_hit (b : Bool) (f : Filter) (p l : Nat) (so : SortSpec)
    (u : Option User) (s : St) (v : RVal)
    (hl : cacheLookup (findAllKey "employees" f p l so) s.cache = some v) :
    BaseService.findAll (employeeSvc b) f p l so u s = (Except.ok v, s) := by
  simp [BaseService.findAll, employeeSvc, defaultHooks, bind_def, pure_def,
    M.bind, M.pure, getCached, hl]

theorem findAll_miss (b : Bool) (f : Filter) (p l : Nat) (so : SortSpec)
    (u : Option User) (s : St)
    (hl : cacheLookup (findAllKey "employees" f p l so) s.cache = none) :
    BaseService.findAll (employeeSvc b) f p l so u s =
      (Except.ok (RVal.page (findAllPage s f p l so)),
        logApp b ⟨"viewAll", "", "employees", u, some (ChVal.filt f)⟩
          (setCacheSt (findAllKey "employees" f p l so)
            (RVal.page (findAllPage s f p l so)) s)) := by
  cases b <;>
    simp [BaseService.findAll, employeeSvc, defaultHooks, tryCatch,
      bind_def, pure_def, M.bind, M.pure, M.throw, getCached, hl, dbCount,
      dbQuery, setCached, BaseService.logActivity,
      ActivityLogService.logActivity, logApp, setCacheSt, findAllPage]

theorem findOne_hit (b : Bool) (id : String) (u : Option User) (s : St)
    (v : RVal)
    (hv : isValidObjectId id = true)
    (hl : cacheLookup (findOneKey "employees" id) s.cache = some v) :
    BaseService.findOne (employeeSvc b) id u s = (Except.ok v, s) := by
  simp [BaseService.findOne, hv, employeeSvc, defaultHooks, bind_def,
    pure_def, M.bind, M.pure, getCached, hl]

theorem findOne_missFound (b : Bool) (id : String) (u : Option User)
    (s : St) (e0 : Entity)
    (hv : isValidObjectId id = true)
    (hl : cacheLookup (findOneKey "employees" id) s.cache = none)
    (hf : s.db.find? (fun e => e._id == id) = some e0) :
    BaseService.findOne (employeeSvc b) id u s =
      (Except.ok (RVal.list [e0]),
        logApp b ⟨"view", id, "employees", u, none⟩
          (setCacheSt (findOneKey "employees" id) (RVal.ent e0) s)) := by
  cases b <;>
    simp [BaseService.findOne, hv, employeeSvc, defaultHooks, tryCatch,
      bind_def, pure_def, M.bind, M.pure, M.throw, getCached, hl,
      dbFindById, hf, setCached, BaseService.logActivity,
      ActivityLogService.logActivity, logApp, setCacheSt]

theorem findOne_missNotFound (b : Bool) (id : String) (u : Option User)
    (s : St)
    (hv : isValidObjectId id = true)
    (hl : cacheLookup (findOneKey "employees" id) s.cache = none)
    (hf : s.db.find? (fun e => e._id == id) = none) :
    BaseService.findOne (employeeSvc b) id u s =
      (Except.error (Err.internal "Error fetching entity"), s) := by
  cases b <;>
    simp [BaseService.findOne, hv, employeeSvc, defaultHooks, tryCatch,
      bind_def, pure_def, M.bind, M.pure, M.throw, getCached, hl,
      dbFindById, hf]

theorem update_invalid (S : Svc) (id : String) (d : Patch)
    (u : Option User) (s : St) (hv : isValidObjectId id = false) :
    BaseService.update S id d u s =
      (Except.error (Err.badRequest "Invalid ID format"), s) := by
  simp [BaseService.update, hv, M.throw]

theorem remove_invalid (S : Svc) (id : String) (u : Option User) (s : St)
    (hv : isValidObjectId id = false) :
    BaseService.remove S id u s =
      (Except.error (Err.badRequest "Invalid ID format"), s) := by
  simp [BaseService.remove, hv, M.throw]

theorem findOne_invalid (S : Svc) (id : String) (u : Option User) (s : St)
    (hv : isValidObjectId id = false) :
    BaseService.findOne S id u s =
      (Except.error (Err.badRequest "Invalid ID format"), s) := by
  simp [BaseService.findOne, hv, M.throw]

theorem softRemove_invalid (S : Svc) (id : String) (u : Option User)
    (s : St) (hv : isValidObjectId id = false) :
    BaseService.softRemove S id u s =
      (Except.error (Err.badRequest "Invalid ID format"), s) := by
  simp [BaseService.softRemove, hv, M.throw]

theorem employeeSvc_auditOk (b : Bool) : (employeeSvc b).auditOk = b := rfl

theorem employeeSvc_coll (b : Bool) :
    (employeeSvc b).coll = "employees" := rfl

theorem search_run (b : Bool) (q : String) (p l : Nat) (u : Option User)
    (s : St) :
    BaseService.search (employeeSvc b) q p l u s =
      ((BaseService.findAll (employeeSvc b) (Filter.text q) p l [] u s).1,
        logApp b ⟨"search", "", "employees", u, some (ChVal.qry q)⟩
          (BaseService.findAll (employeeSvc b) (Filter.text q) p l [] u
              s).2) := by
  rcases hl : cacheLookup (findAllKey "employees" (Filter.text q) p l [])
      s.cache with _ | v
  · have h1 := findAll_miss b (Filter.text q) p l [] u s hl
    simp [BaseService.search, tryCatch, bind_def, pure_def, M.bind, M.pure,
      h1, logActivity_run, employeeSvc_auditOk, employeeSvc_coll]
  · have h1 := findAll_hit b (Filter.text q) p l [] u s v hl
    simp [BaseService.search, tryCatch, bind_def, pure_def, M.bind, M.pure,
      h1, logActivity_run, employeeSvc_auditOk, employeeSvc_coll]

theorem find?_replace (l : List Entity) (id : String) (e0 e1 : Entity)
    (hf : l.find? (fun e => e._id == id) = some e0)
    (hid : e1._id = e0._id) :
    (l.map fun x => if x._id == id then e1 else x).find?
        (fun e => e._id == id) = some e1 := by
  induction l with
  | nil => simp at hf
  | cons x xs ih =>
      by_cases hx : (x._id == id) = true
      · simp only [List.find?_cons, hx] at hf
        obtain rfl : x = e0 := Option.some.inj hf
        have he1 : (e1._id == id) = true := by rw [hid]; exact hx
        rw [List.map_cons, if_pos hx]
        exact List.find?_cons_of_pos _ he1
      · simp only [Bool.not_eq_true] at hx
        simp only [List.find?_cons, hx] at hf
        rw [List.map_cons, if_neg (by simp [hx]),
          List.find?_cons_of_neg _ (by simp [hx])]
        exact ih hf

/-- C5: for update, remove, findOne and softRemove, an id string that is not
a valid object id makes the operation raise the bad-request error
`Invalid ID format` before any other step: the state (store, cache, audit
log, console, events) is returned unchanged.  This holds for any service
configuration and hooks, since the check precedes every other step. -/
theorem C5_invalid_id_short_circuits (S : Svc) (id : String) (d : Patch)
    (u : Option User) (s : St) (hv : isValidObjectId id = false) :
    BaseService.update S id d u s =
        (Except.error (Err.badRequest "Invalid ID format"), s) ∧
      BaseService.remove S id u s =
        (Except.error (Err.badRequest "Invalid ID format"), s) ∧
      BaseService.findOne S id u s =
        (Except.error (Err.badRequest "Invalid ID format"), s) ∧
      BaseService.softRemove S id u s =
        (Except.error (Err.badRequest "Invalid ID format"), s) :=
  ⟨update_invalid S id d u s hv, remove_invalid S id u s hv,
    findOne_invalid S id u s hv, softRemove_invalid S id u s hv⟩

/-- Witness for C5 at the concrete invalid id `"nope"`. -/
theorem C5_invalid_id_short_circuits_witness :
    isValidObjectId invalidId = false ∧
      BaseService.update (employeeSvc true) invalidId samplePatch
          (some sampleUser) stWithDoc =
        (Except.error (Err.badRequest "Invalid ID format"), stWithDoc) :=
  ⟨by decide,
    (C5_invalid_id_short_circuits (employeeSvc true) invalidId samplePatch
      (some sampleUser) stWithDoc (by decide)).1⟩

/-- C1: the claim says the not-found condition is surfaced to the caller as
a not-found error.  The code contradicts it: the `NotFoundException` is
thrown inside the `try` block of each operation, so the catch-all replaces
it with the generic internal error.  Evaluating the embedded operations at
a well-formed id that is absent from the store shows every one of them
returning the internal error, never the not-found error. -/
theorem C1_notFound_swallowed_into_internal :
    BaseService.update (employeeSvc true) sampleId samplePatch
        (some sampleUser) emptySt =
      (Except.error (Err.internal "Error updating entity"), emptySt) ∧
    BaseService.remove (employeeSvc true) sampleId (some sampleUser)
        emptySt =
      (Except.error (Err.internal "Error removing entity"), emptySt) ∧
    BaseService.findOne (employeeSvc true) sampleId (some sampleUser)
        emptySt =
      (Except.error (Err.internal "Error fetching entity"), emptySt) ∧
    BaseService.softRemove (employeeSvc true) sampleId (some sampleUser)
        emptySt =
      (Except.error (Err.internal "Error soft-deleting entity"), emptySt) :=
  ⟨rfl, rfl, rfl, rfl⟩

/-- C4: the claim says `findOne` returns the value it writes into the
cache, so two consecutive calls agree.  The code contradicts it: the
missing `await` on `this.onView([entity], user)` makes the un-cached call
return the one-element array produced by `onView`, while the cache holds
the bare entity, which the second call returns. -/
theorem C4_findOne_returns_list_caches_entity :
    (BaseService.findOne (employeeSvc true) sampleId (some sampleUser)
          stWithDoc).1 = Except.ok (RVal.list [sampleEntity]) ∧
    cacheLookup (findOneKey "employees" sampleId)
        (BaseService.findOne (employeeSvc true) sampleId (some sampleUser)
            stWithDoc).2.cache = some (RVal.ent sampleEntity) ∧
    (BaseService.findOne (employeeSvc true) sampleId (some sampleUser)
          (BaseService.findOne (employeeSvc true) sampleId
              (some sampleUser) stWithDoc).2).1 =
        Except.ok (RVal.ent sampleEntity) ∧
    RVal.list [sampleEntity] ≠ RVal.ent sampleEntity :=
  ⟨rfl, rfl, rfl, by decide⟩

/-- C9: when the cache already holds an entry for the computed key,
`findAll` and `findOne` return that cached value and leave the entire
state unchanged: no database query, no `onView` run, no audit entry, no
cache write. -/
theorem C9_cache_hit_returns_cached_pure :
    (∀ (b : Bool) (f : Filter) (p l : Nat) (so : SortSpec)
        (u : Option User) (s : St) (v : RVal),
      cacheLookup (findAllKey "employees" f p l so) s.cache = some v →
      BaseService.findAll (employeeSvc b) f p l so u s =
        (Except.ok v, s)) ∧
    (∀ (b : Bool) (id : String) (u : Option User) (s : St) (v : RVal),
      isValidObjectId id = true →
      cacheLookup (findOneKey "employees" id) s.cache = some v →
      BaseService.findOne (employeeSvc b) id u s = (Except.ok v, s)) :=
  ⟨fun b f p l so u s v hl => findAll_hit b f p l so u s v hl,
    fun b id u s v hv hl => findOne_hit b id u s v hv hl⟩

/-- C2 counterexample: on a successful soft delete of an existing entity,
`softRemove` leaves the cache unchanged — the `findOne-{id}` key of the
very entity is still present — and emits no event, contradicting the claim
that every mutating operation invalidates the related cache keys and emits
a lifecycle event. -/
theorem C2_softRemove_no_invalidation_no_event :
    (BaseService.softRemove (employeeSvc true) sampleId (some sampleUser)
          stWithDocAndCache).1 = Except.ok () ∧
    (BaseService.softRemove (employeeSvc true) sampleId (some sampleUser)
          stWithDocAndCache).2.cache = stWithDocAndCache.cache ∧
    cacheLookup (findOneKey "employees" sampleId) stWithDocAndCache.cache =
      some (RVal.ent sampleEntity) ∧
    (BaseService.softRemove (employeeSvc true) sampleId (some sampleUser)
          stWithDocAndCache).2.events = [] :=
  ⟨rfl, rfl, rfl, rfl⟩

/-- C2 amended: create, update and remove do invalidate the cache keys
related to the affected entity (the collection's `findAll` keys, and
additionally the `findOne-{id}` key when an id is given), and that
invalidation persists; but no operation ever emits a lifecycle event, and
create, update and remove never succeed: the `eventEmitter` property is
never injected, so the emit call placed after the cache invalidation
throws, the catch-all reports the generic internal error, and the event
list is left unchanged (while the database write, the audit entry and the
cache invalidations persist).  `softRemove` performs no cache
invalidation and no event emission on any outcome. -/
theorem C2_mutators_cache_and_events :
    (∀ (b : Bool) (d : Patch) (u : Option User) (s : St),
      (BaseService.create (employeeSvc b) d u s).1 =
          Except.error (Err.internal "Error creating entity") ∧
        (BaseService.create (employeeSvc b) d u s).2.cache =
          cacheDel "employees-findAll-*" s.cache ∧
        (BaseService.create (employeeSvc b) d u s).2.events = s.events) ∧
    (∀ (b : Bool) (id : String) (d : Patch) (u : Option User) (s : St)
        (e0 : Entity), isValidObjectId id = true →
      s.db.find? (fun e => e._id == id) = some e0 →
      (BaseService.update (employeeSvc b) id d u s).1 =
          Except.error (Err.internal "Error updating entity") ∧
        (BaseService.update (employeeSvc b) id d u s).2.cache =
          cacheDel "employees-findAll-*"
            (cacheDel ("employees-findOne-" ++ id) s.cache) ∧
        (BaseService.update (employeeSvc b) id d u s).2.events =
          s.events) ∧
    (∀ (b : Bool) (id : String) (u : Option User) (s : St) (e0 : Entity),
      isValidObjectId id = true →
      s.db.find? (fun e => e._id == id) = some e0 →
      (BaseService.remove (employeeSvc b) id u s).1 =
          Except.error (Err.internal "Error removing entity") ∧
        (BaseService.remove (employeeSvc b) id u s).2.cache =
          cacheDel "employees-findAll-*"
            (cacheDel ("employees-findOne-" ++ id) s.cache) ∧
        (BaseService.remove (employeeSvc b) id u s).2.events =
          s.events) ∧
    (∀ (b : Bool) (id : String) (u : Option User) (s : St),
      (BaseService.softRemove (employeeSvc b) id u s).2.cache = s.cache ∧
        (BaseService.softRemove (employeeSvc b) id u s).2.events =
          s.events) := by
  refine ⟨?_, ?_, ?_, ?_⟩
  · intro b d u s
    rw [create_run]
    cases b <;> simp [delCacheSt, logApp, saveSt]
  · intro b id d u s e0 hv hf
    rw [update_run b id d u s e0 hv hf]
    cases b <;> simp [delCacheSt, logApp, replaceSt]
  · intro b id u s e0 hv hf
    rw [remove_run b id u s e0 hv hf]
    cases b <;> simp [delCacheSt, logApp, deleteSt]
  · intro b id u s
    cases hv : isValidObjectId id
    · rw [softRemove_invalid _ _ _ _ hv]
      exact ⟨rfl, rfl⟩
    · cases hf : s.db.find? (fun e => e._id == id) with
      | none =>
          rw [softRemove_notFound b id u s hv hf]
          exact ⟨rfl, rfl⟩
      | some e0 =>
          rw [softRemove_run b id u s e0 hv hf]
          cases b <;> simp [logApp, replaceSt]

/-- Witness for C2 amended: a concrete update invalidating both keys while
emitting nothing, and a concrete softRemove leaving the events
untouched. -/
theorem C2_mutators_cache_and_events_witness :
    (BaseService.update (employeeSvc true) sampleId samplePatch
          (some sampleUser) stWithDocAndCache).2.cache =
        cacheDel "employees-findAll-*"
          (cacheDel ("employees-findOne-" ++ sampleId)
            stWithDocAndCache.cache) ∧
    (BaseService.update (employeeSvc true) sampleId samplePatch
          (some sampleUser) stWithDocAndCache).2.events =
        stWithDocAndCache.events ∧
    (BaseService.softRemove (employeeSvc true) sampleId (some sampleUser)
          stWithDocAndCache).2.events = stWithDocAndCache.events :=
  ⟨(C2_mutators_cache_and_events.2.1 true sampleId samplePatch
      (some sampleUser) stWithDocAndCache sampleEntity (by decide)
      (by decide)).2.1,
    (C2_mutators_cache_and_events.2.1 true sampleId samplePatch
      (some sampleUser) stWithDocAndCache sampleEntity (by decide)
      (by decide)).2.2,
    (C2_mutators_cache_and_events.2.2.2 true sampleId (some sampleUser)
      stWithDocAndCache).2⟩

/-- C6: the bookkeeping fields are set on the stored documents — create
stores a document whose `createdBy` is `user.userId` whenever it is
present, update stores the document with `updatedBy` set likewise, and
softRemove sets `isDeleted`, `deletedBy` and `deletedAt` on the stored
record while leaving it physically present in the store.  (The writes of
create and update persist even though both operations subsequently fail
at the never-injected emitter; the claims are therefore stated on the
document store of the final state.) -/
theorem C6_bookkeeping_fields_set :
    (∀ (b : Bool) (d : Patch) (u : Option User) (s : St),
      (userId? u).isSome = true →
      (BaseService.create (employeeSvc b) d u s).2.db =
          s.db ++ [newEntity s.nextId (createData d u)] ∧
        (newEntity s.nextId (createData d u)).createdBy = userId? u) ∧
    (∀ (b : Bool) (id : String) (d : Patch) (u : Option User) (s : St)
        (e0 : Entity), isValidObjectId id = true →
      s.db.find? (fun x => x._id == id) = some e0 →
      (userId? u).isSome = true →
      (BaseService.update (employeeSvc b) id d u s).2.db.find?
            (fun x => x._id == id) =
          some (applyPatch (updData d u) e0) ∧
        (applyPatch (updData d u) e0).updatedBy = userId? u) ∧
    (∀ (b : Bool) (id : String) (u : Option User) (s : St) (e0 : Entity),
      isValidObjectId id = true →
      s.db.find? (fun x => x._id == id) = some e0 →
      (BaseService.softRemove (employeeSvc b) id u s).1 = Except.ok () ∧
        (BaseService.softRemove (employeeSvc b) id u s).2.db.find?
            (fun x => x._id == id) =
          some { e0 with isDeleted := true, deletedBy := userId? u,
                         deletedAt := some s.now }) := by
  refine ⟨?_, ?_, ?_⟩
  · intro b d u s hu
    constructor
    · rw [create_run]
      cases b <;> simp [delCacheSt, logApp, saveSt]
    · simp [newEntity, createData, hu]
  · intro b id d u s e0 hv hf hu
    constructor
    · have hdb : (BaseService.update (employeeSvc b) id d u s).2.db =
          (replaceSt id (applyPatch (updData d u) e0) s).db := by
        rw [update_run b id d u s e0 hv hf]
        cases b <;> simp [delCacheSt, logApp]
      rw [hdb]
      exact find?_replace s.db id e0 _ hf rfl
    · obtain ⟨x, hx⟩ := Option.isSome_iff_exists.mp hu
      simp [applyPatch, updData, hx]
  · intro b id u s e0 hv hf
    rw [softRemove_run b id u s e0 hv hf]
    constructor
    · rfl
    · have hdb : (logApp b ⟨"softDelete", id, "employees", u, none⟩
          (replaceSt id
            { e0 with isDeleted := true, deletedBy := userId? u,
                      deletedAt := some s.now } s)).db =
          (replaceSt id
            { e0 with isDeleted := true, deletedBy := userId? u,
                      deletedAt := some s.now } s).db := by
        cases b <;> simp [logApp]
      rw [hdb]
      exact find?_replace s.db id e0 _ hf rfl

/-- Witness for C6 at concrete create/update/softRemove calls. -/
theorem C6_bookkeeping_fields_set_witness :
    ((BaseService.create (employeeSvc true) samplePatch (some sampleUser)
          emptySt).2.db =
        emptySt.db ++
          [newEntity emptySt.nextId
            (createData samplePatch (some sampleUser))] ∧
      (newEntity emptySt.nextId
          (createData samplePatch (some sampleUser))).createdBy =
        userId? (some sampleUser)) ∧
    ((BaseService.update (employeeSvc true) sampleId samplePatch
          (some sampleUser) stWithDoc).2.db.find?
            (fun x => x._id == sampleId) =
        some (applyPatch (updData samplePatch (some sampleUser))
          sampleEntity) ∧
      (applyPatch (updData samplePatch (some sampleUser))
          sampleEntity).updatedBy = userId? (some sampleUser)) ∧
    (BaseService.softRemove (employeeSvc true) sampleId (some sampleUser)
          stWithDoc).2.db.find? (fun x => x._id == sampleId) =
      some { sampleEntity with isDeleted := true,
                               deletedBy := userId? (some sampleUser),
                               deletedAt := some stWithDoc.now } :=
  ⟨C6_bookkeeping_fields_set.1 true samplePatch (some sampleUser) emptySt
      (by decide),
    C6_bookkeeping_fields_set.2.1 true sampleId samplePatch
      (some sampleUser) stWithDoc sampleEntity (by decide) (by decide)
      (by decide),
    (C6_bookkeeping_fields_set.2.2 true sampleId (some sampleUser)
      stWithDoc sampleEntity (by decide) (by decide)).2⟩

/-- Witness for C9 at a cached `findAll` page and a cached `findOne`
entity. -/
theorem C9_cache_hit_returns_cached_pure_witness :
    BaseService.findAll (employeeSvc true) Filter.all 1 10 []
        (some sampleUser) stWithFindAllCache =
      (Except.ok (RVal.page samplePage), stWithFindAllCache) ∧
    BaseService.findOne (employeeSvc true) sampleId (some sampleUser)
        stWithDocAndCache =
      (Except.ok (RVal.ent sampleEntity), stWithDocAndCache) :=
  ⟨C9_cache_hit_returns_cached_pure.1 true Filter.all 1 10 []
      (some sampleUser) stWithFindAllCache (RVal.page samplePage)
      (by decide),
    C9_cache_hit_returns_cached_pure.2 true sampleId (some sampleUser)
      stWithDocAndCache (RVal.ent sampleEntity) (by decide) (by decide)⟩

/-- C7 counterexample: a successful `findOne` and a successful `findAll`
answered from the cache write no audit entry at all (the audit log stays
empty), contradicting the claim that every successful call writes exactly
one entry, including calls answered from the cache. -/
theorem C7_cache_hit_skips_audit_cex :
    (BaseService.findOne (employeeSvc true) sampleId (some sampleUser)
          stWithDocAndCache).1 = Except.ok (RVal.ent sampleEntity) ∧
    (BaseService.findOne (employeeSvc true) sampleId (some sampleUser)
          stWithDocAndCache).2.audit = [] ∧
    (BaseService.findAll (employeeSvc true) Filter.all 1 10 []
          (some sampleUser) stWithFindAllCache).1 =
        Except.ok (RVal.page samplePage) ∧
    (BaseService.findAll (employeeSvc true) Filter.all 1 10 []
          (some sampleUser) stWithFindAllCache).2.audit = [] :=
  ⟨rfl, rfl, rfl, rfl⟩

/-- C7 amended: with the audit backend up, every successful
create/update/remove/softRemove call appends exactly one audit entry
naming its action (`create`, `update`, `delete`, `softDelete`); a
`findAll` or `findOne` call answered from the database appends exactly one
`viewAll`/`view` entry, but a call answered from the cache appends none;
and `search` appends one `search` entry in addition to whatever its inner
`findAll` call wrote. -/
theorem C7_audit_entries_per_operation :
    (∀ (d : Patch) (u : Option User) (s : St),
      (BaseService.create (employeeSvc true) d u s).2.audit =
        s.audit ++ [⟨"create", freshId s.nextId, "employees", u,
          some (ChVal.patch (createData d u))⟩]) ∧
    (∀ (id : String) (d : Patch) (u : Option User) (s : St) (e0 : Entity),
      isValidObjectId id = true →
      s.db.find? (fun e => e._id == id) = some e0 →
      (BaseService.update (employeeSvc true) id d u s).2.audit =
        s.audit ++ [⟨"update", id, "employees", u,
          some (ChVal.patch (updData d u))⟩]) ∧
    (∀ (id : String) (u : Option User) (s : St) (e0 : Entity),
      isValidObjectId id = true →
      s.db.find? (fun e => e._id == id) = some e0 →
      (BaseService.remove (employeeSvc true) id u s).2.audit =
        s.audit ++ [⟨"delete", id, "employees", u,
          some (ChVal.ent (some e0))⟩]) ∧
    (∀ (id : String) (u : Option User) (s : St) (e0 : Entity),
      isValidObjectId id = true →
      s.db.find? (fun e => e._id == id) = some e0 →
      (BaseService.softRemove (employeeSvc true) id u s).2.audit =
        s.audit ++ [⟨"softDelete", id, "employees", u, none⟩]) ∧
    (∀ (f : Filter) (p l : Nat) (so : SortSpec) (u : Option User) (s : St),
      cacheLookup (findAllKey "employees" f p l so) s.cache = none →
      (BaseService.findAll (employeeSvc true) f p l so u s).2.audit =
        s.audit ++ [⟨"viewAll", "", "employees", u,
          some (ChVal.filt f)⟩]) ∧
    (∀ (f : Filter) (p l : Nat) (so : SortSpec) (u : Option User) (s : St)
        (v : RVal),
      cacheLookup (findAllKey "employees" f p l so) s.cache = some v →
      (BaseService.findAll (employeeSvc true) f p l so u s).2.audit =
        s.audit) ∧
    (∀ (id : String) (u : Option User) (s : St) (e0 : Entity),
      isValidObjectId id = true →
      cacheLookup (findOneKey "employees" id) s.cache = none →
      s.db.find? (fun e => e._id == id) = some e0 →
      (BaseService.findOne (employeeSvc true) id u s).2.audit =
        s.audit ++ [⟨"view", id, "employees", u, none⟩]) ∧
    (∀ (id : String) (u : Option User) (s : St) (v : RVal),
      isValidObjectId id = true →
      cacheLookup (findOneKey "employees" id) s.cache = some v →
      (BaseService.findOne (employeeSvc true) id u s).2.audit =
        s.audit) ∧
    (∀ (q : String) (p l : Nat) (u : Option User) (s : St),
      (BaseService.search (employeeSvc true) q p l u s).2.audit =
        (BaseService.findAll (employeeSvc true) (Filter.text q) p l [] u
            s).2.audit ++
          [⟨"search", "", "employees", u, some (ChVal.qry q)⟩]) := by
  refine ⟨?_, ?_, ?_, ?_, ?_, ?_, ?_, ?_, ?_⟩
  · intro d u s
    rw [create_run]
    simp [delCacheSt, logApp, saveSt]
  · intro id d u s e0 hv hf
    rw [update_run true id d u s e0 hv hf]
    simp [delCacheSt, logApp, replaceSt]
  · intro id u s e0 hv hf
    rw [remove_run true id u s e0 hv hf]
    simp [delCacheSt, logApp, deleteSt]
  · intro id u s e0 hv hf
    rw [softRemove_run true id u s e0 hv hf]
    simp [logApp, replaceSt]
  · intro f p l so u s hl
    rw [findAll_miss true f p l so u s hl]
    simp [logApp, setCacheSt]
  · intro f p l so u s v hl
    rw [findAll_hit true f p l so u s v hl]
  · intro id u s e0 hv hl hf
    rw [findOne_missFound true id u s e0 hv hl hf]
    simp [logApp, setCacheSt]
  · intro id u s v hv hl
    rw [findOne_hit true id u s v hv hl]
  · intro q p l u s
    rw [search_run true q p l u s]
    simp [logApp]

/-- Witness for C7 amended: a concrete update writing its single entry and
a concrete cached findOne writing none. -/
theorem C7_audit_entries_per_operation_witness :
    (BaseService.update (employeeSvc true) sampleId samplePatch
          (some sampleUser) stWithDoc).2.audit =
        stWithDoc.audit ++ [⟨"update", sampleId, "employees",
          some sampleUser,
          some (ChVal.patch (updData samplePatch (some sampleUser)))⟩] ∧
    (BaseService.findOne (employeeSvc true) sampleId (some sampleUser)
          stWithDocAndCache).2.audit = stWithDocAndCache.audit :=
  ⟨C7_audit_entries_per_operation.2.1 sampleId samplePatch
      (some sampleUser) stWithDoc sampleEntity (by decide) (by decide),
    C7_audit_entries_per_operation.2.2.2.2.2.2.2.1 sampleId
      (some sampleUser) stWithDocAndCache (RVal.ent sampleEntity)
      (by decide) (by decide)⟩

/-- C8: `search(query, page, limit, user)` returns exactly the value of
`findAll({ $text: { $search: query } }, page, limit, {}, user)` and its
only further effect is appending one `search` audit entry to the state
`findAll` produced. -/
theorem C8_search_refines_findAll (q : String) (p l : Nat)
    (u : Option User) (s : St) :
    BaseService.search (employeeSvc true) q p l u s =
      ((BaseService.findAll (employeeSvc true) (Filter.text q) p l [] u
          s).1,
        addAudit
          (BaseService.findAll (employeeSvc true) (Filter.text q) p l [] u
              s).2
          ⟨"search", "", "employees", u, some (ChVal.qry q)⟩) := by
  have h := search_run true q p l u s
  simpa [logApp, addAudit] using h

/-- C3: a failure of the activity-log backend is written to the console
and swallowed: `logActivity` still succeeds, and every operation returns
the same result and the same store/cache/events/counter state as when the
audit write succeeds. -/
theorem C3_audit_failure_swallowed :
    (∀ (a i : String) (u : Option User) (c : Option ChVal) (s : St),
      BaseService.logActivity (employeeSvc false) a i u c s =
        (Except.ok (),
          { s with console := s.console ++ ["Create log system error"] })) ∧
    (∀ (d : Patch) (u : Option User) (s : St),
      (BaseService.create (employeeSvc false) d u s).1 =
          (BaseService.create (employeeSvc true) d u s).1 ∧
        visible (BaseService.create (employeeSvc false) d u s).2 =
          visible (BaseService.create (employeeSvc true) d u s).2) ∧
    (∀ (id : String) (d : Patch) (u : Option User) (s : St),
      (BaseService.update (employeeSvc false) id d u s).1 =
          (BaseService.update (employeeSvc true) id d u s).1 ∧
        visible (BaseService.update (employeeSvc false) id d u s).2 =
          visible (BaseService.update (employeeSvc true) id d u s).2) ∧
    (∀ (id : String) (u : Option User) (s : St),
      (BaseService.remove (employeeSvc false) id u s).1 =
          (BaseService.remove (employeeSvc true) id u s).1 ∧
        visible (BaseService.remove (employeeSvc false) id u s).2 =
          visible (BaseService.remove (employeeSvc true) id u s).2) ∧
    (∀ (id : String) (u : Option User) (s : St),
      (BaseService.softRemove (employeeSvc false) id u s).1 =
          (BaseService.softRemove (employeeSvc true) id u s).1 ∧
        visible (BaseService.softRemove (employeeSvc false) id u s).2 =
          visible (BaseService.softRemove (employeeSvc true) id u s).2) ∧
    (∀ (f : Filter) (p l : Nat) (so : SortSpec) (u : Option User) (s : St),
      (BaseService.findAll (employeeSvc false) f p l so u s).1 =
          (BaseService.findAll (employeeSvc true) f p l so u s).1 ∧
        visible (BaseService.findAll (employeeSvc false) f p l so u s).2 =
          visible (BaseService.findAll (employeeSvc true) f p l so u
              s).2) ∧
    (∀ (id : String) (u : Option User) (s : St),
      (BaseService.findOne (employeeSvc false) id u s).1 =
          (BaseService.findOne (employeeSvc true) id u s).1 ∧
        visible (BaseService.findOne (employeeSvc false) id u s).2 =
          visible (BaseService.findOne (employeeSvc true) id u s).2) ∧
    (∀ (q : String) (p l : Nat) (u : Option User) (s : St),
      (BaseService.search (employeeSvc false) q p l u s).1 =
          (BaseService.search (employeeSvc true) q p l u s).1 ∧
        visible (BaseService.search (employeeSvc false) q p l u s).2 =
          visible (BaseService.search (employeeSvc true) q p l u s).2) := by
  refine ⟨?_, ?_, ?_, ?_, ?_, ?_, ?_, ?_⟩
  · intro a i u c s
    rw [logActivity_run]
    rfl
  · intro d u s
    simp [create_run, visible, delCacheSt, logApp, saveSt]
  · intro id d u s
    cases hv : isValidObjectId id
    · rw [update_invalid (employeeSvc false) id d u s hv,
        update_invalid (employeeSvc true) id d u s hv]
      exact ⟨rfl, rfl⟩
    · cases hf : s.db.find? (fun e => e._id == id) with
      | none =>
          rw [update_notFound false id d u s hv hf,
            update_notFound true id d u s hv hf]
          exact ⟨rfl, rfl⟩
      | some e0 =>
          rw [update_run false id d u s e0 hv hf,
            update_run true id d u s e0 hv hf]
          simp [visible, delCacheSt, logApp, replaceSt]
  · intro id u s
    cases hv : isValidObjectId id
    · rw [remove_invalid (employeeSvc false) id u s hv,
        remove_invalid (employeeSvc true) id u s hv]
      exact ⟨rfl, rfl⟩
    · cases hf : s.db.find? (fun e => e._id == id) with
      | none =>
          rw [remove_notFound false id u s hv hf,
            remove_notFound true id u s hv hf]
          exact ⟨rfl, rfl⟩
      | some e0 =>
          rw [remove_run false id u s e0 hv hf,
            remove_run true id u s e0 hv hf]
          simp [visible, delCacheSt, logApp, deleteSt]
  · intro id u s
    cases hv : isValidObjectId id
    · rw [softRemove_invalid (employeeSvc false) id u s hv,
        softRemove_invalid (employeeSvc true) id u s hv]
      exact ⟨rfl, rfl⟩
    · cases hf : s.db.find? (fun e => e._id == id) with
      | none =>
          rw [softRemove_notFound false id u s hv hf,
            softRemove_notFound true id u s hv hf]
          exact ⟨rfl, rfl⟩
      | some e0 =>
          rw [softRemove_run false id u s e0 hv hf,
            softRemove_run true id u s e0 hv hf]
          simp [visible, logApp, replaceSt]
  · intro f p l so u s
    cases hl : cacheLookup (findAllKey "employees" f p l so) s.cache with
    | none =>
        rw [findAll_miss false f p l so u s hl,
          findAll_miss true f p l so u s hl]
        simp [visible, logApp, setCacheSt]
    | some v =>
        rw [findAll_hit false f p l so u s v hl,
          findAll_hit true f p l so u s v hl]
        exact ⟨rfl, rfl⟩
  · intro id u s
    cases hv : isValidObjectId id
    · rw [findOne_invalid (employeeSvc false) id u s hv,
        findOne_invalid (employeeSvc true) id u s hv]
      exact ⟨rfl, rfl⟩
    · cases hl : cacheLookup (findOneKey "employees" id) s.cache with
      | some v =>
          rw [findOne_hit false id u s v hv hl,
            findOne_hit true id u s v hv hl]
          exact ⟨rfl, rfl⟩
      | none =>
          cases hf : s.db.find? (fun e => e._id == id) with
          | none =>
              rw [findOne_missNotFound false id u s hv hl hf,
                findOne_missNotFound true id u s hv hl hf]
              exact ⟨rfl, rfl⟩
          | some e0 =>
              rw [findOne_missFound false id u s e0 hv hl hf,
                findOne_missFound true id u s e0 hv hl hf]
              simp [visible, logApp, setCacheSt]
  · intro q p l u s
    rw [search_run false q p l u s, search_run true q p l u s]
    cases hl : cacheLookup (findAllKey "employees" (Filter.text q) p l [])
        s.cache with
    | none =>
        rw [findAll_miss false (Filter.text q) p l [] u s hl,
          findAll_miss true (Filter.text q) p l [] u s hl]
        simp [visible, logApp, setCacheSt]
    | some v =>
        rw [findAll_hit false (Filter.text q) p l [] u s v hl,
          findAll_hit true (Filter.text q) p l [] u s v hl]
        simp [visible, logApp]

/-- C10: the default lifecycle hooks are no-ops — `beforeCreate`,
`beforeUpdate` and `onFinding` return their data/condition argument,
`onView` returns its list, the remaining hooks return unit without any
state change — and consequently, for the `EmployeeService` subclass that
overrides none of them, each operation equals the operation with the hook
calls removed (`softRemove` contains no hook call to begin with). -/
theorem C10_default_hooks_are_noops :
    (∀ (d : Patch) (u : Option User),
      defaultHooks.beforeCreate d u = M.pure d) ∧
    (∀ (e : Entity) (u : Option User),
      defaultHooks.afterCreate e u = M.pure ()) ∧
    (∀ (id : String) (d : Patch) (u : Option User),
      defaultHooks.beforeUpdate id d u = M.pure d) ∧
    (∀ (e : Entity) (u : Option User),
      defaultHooks.afterUpdate e u = M.pure ()) ∧
    (∀ (e : Option Entity) (u : Option User),
      defaultHooks.beforeRemove e u = M.pure ()) ∧
    (∀ (e : Option Entity) (u : Option User),
      defaultHooks.afterRemove e u = M.pure ()) ∧
    (∀ (d : List Entity) (u : Option User),
      defaultHooks.onView d u = M.pure d) ∧
    (∀ (c : Filter) (u : Option User),
      defaultHooks.onFinding c u = M.pure c) ∧
    (∀ (b : Bool) (d : Patch) (u : Option User),
      BaseService.create (employeeSvc b) d u =
        createNoHooks (employeeSvc b) d u) ∧
    (∀ (b : Bool) (id : String) (d : Patch) (u : Option User),
      BaseService.update (employeeSvc b) id d u =
        updateNoHooks (employeeSvc b) id d u) ∧
    (∀ (b : Bool) (id : String) (u : Option User),
      BaseService.remove (employeeSvc b) id u =
        removeNoHooks (employeeSvc b) id u) ∧
    (∀ (b : Bool) (f : Filter) (p l : Nat) (so : SortSpec)
        (u : Option User),
      BaseService.findAll (employeeSvc b) f p l so u =
        findAllNoHooks (employeeSvc b) f p l so u) ∧
    (∀ (b : Bool) (id : String) (u : Option User),
      BaseService.findOne (employeeSvc b) id u =
        findOneNoHooks (employeeSvc b) id u) ∧
    (∀ (b : Bool) (q : String) (p l : Nat) (u : Option User),
      BaseService.search (employeeSvc b) q p l u =
        searchNoHooks (employeeSvc b) q p l u) := by
  refine ⟨fun d u => rfl, fun e u => rfl, fun id d u => rfl,
    fun e u => rfl, fun e u => rfl, fun e u => rfl, fun d u => rfl,
    fun c u => rfl, ?_, ?_, ?_, ?_, ?_, ?_⟩
  · intro b d u
    funext s
    rfl
  · intro b id d u
    funext s
    rfl
  · intro b id u
    funext s
    rfl
  · intro b f p l so u
    funext s
    rfl
  · intro b id u
    funext s
    rfl
  · intro b q p l u
    funext s
    rfl

end XServer
